import Mathlib

/-!
Verification development for the log-preprocessing core of
devops-error-analyzer (src/src/preprocessor.py, class LogPreprocessor).

The extractor's slow path (file at/above the 200 KB threshold) is modelled
on the in-memory line list produced by readlines(): each element of
`lines : List String` is one line, trailing newline included.  Machine
integers are Nat; Python sets/dicts of the algorithm are modelled by lists
preserving the iteration/insertion order the code relies on.
-/

/- ---------- generic character/list helpers ---------- -/

/-- ASCII lowercase of one character, as Python str.lower does on ASCII. -/
def lowerChar (c : Char) : Char :=
  if c.isUpper then Char.ofNat (c.toNat + 32) else c

/-- Lowercase a character list (Python str.lower, ASCII fragment). -/
def lowerL (l : List Char) : List Char := l.map lowerChar

/-- Does `hay` start with `needle`? -/
def startsWithL : List Char → List Char → Bool
  | [], _ => true
  | _ :: _, [] => false
  | c :: cs, d :: ds => c == d && startsWithL cs ds

/-- Substring containment, Python `needle in hay`. -/
def hasSub : List Char → List Char → Bool
  | [], needle => needle.isEmpty
  | c :: t, needle => startsWithL needle (c :: t) || hasSub t needle

/-- Python `sep.join(parts)`. -/
def joinSep (sep : String) : List String → String
  | [] => ""
  | [s] => s
  | s :: rest => s ++ sep ++ joinSep sep rest

/-- Python `list(range(s, e + 1))`. -/
def rangeList (s e : Nat) : List Nat :=
  (List.range (e + 1 - s)).map (fun x => x + s)

/- ---------- extractor (extract_error_sections, lines 20-137) ---------- -/

/-- preprocessor.py lines 20-32: LogPreprocessor.ERROR_KEYWORDS, verbatim,
including the duplicated entry and the letter cases of the source. -/
def ERROR_KEYWORDS : List String :=
  ["error", "exception", "failure", "fail", "failed", "critical",
   "severe", "fatal", "crash", "crashed", "abort", "aborted",
   "denied", "denied", "reject", "rejected", "timeout", "timed out",
   "invalid", "incorrect", "warning", "alert", "emergency",
   "panic", "unexpected", "unable", "cannot", "not found",
   "forbidden", "prohibited", "unauthorized", "access denied",
   "permission denied", "insufficient", "missing", "bad request",
   "out of memory", "OOM", "killed", "segfault", "null pointer",
   "unexpected EOF", "corrupt", "deadlock", "race condition",
   "leaked", "overflow", "underflow", "exceed", "too many",
   "too few", "too large", "too small"]

/-- preprocessor.py lines 92-94: the per-line keyword test.  The line is
lowercased; each keyword is compared verbatim (the source does not lower
the keyword). -/
def lineMatches (line : String) : Bool :=
  ERROR_KEYWORDS.any (fun k => hasSub (lowerL line.data) k.data)

/-- preprocessor.py lines 91-95 plus the `sorted` on line 104: the ascending
list of indices of lines containing a keyword. -/
def errorLineIndices (lines : List String) : List Nat :=
  (List.range lines.length).filter (fun i => lineMatches (lines.getD i ""))

/-- A window is (match index, start index, end index), both ends inclusive. -/
def covers (w : Nat × Nat × Nat) (x : Nat) : Prop :=
  w.2.1 ≤ x ∧ x ≤ w.2.2

instance decCovers (w : Nat × Nat × Nat) (x : Nat) : Decidable (covers w x) :=
  inferInstanceAs (Decidable (_ ∧ _))

/-- preprocessor.py lines 100-124: the window-emission loop, instrumented to
record the (match, start_idx, end_idx) triple of every emitted section.
`processed` is processed_indices and `acc` the emitted windows, newest
first (reversed on exit).  start is max(0, i - context) via Nat
subtraction; end is min(len(lines) - 1, i + context). -/
def extractWindowsAux (lines : List String) (ctx maxE : Nat) :
    List Nat → List Nat → List (Nat × Nat × Nat) → List (Nat × Nat × Nat)
  | [], _, acc => acc.reverse
  | i :: rest, processed, acc =>
    if i ∈ processed then
      extractWindowsAux lines ctx maxE rest processed acc
    else
      if maxE ≤ ((i, i - ctx, min (lines.length - 1) (i + ctx)) :: acc).length then
        ((i, i - ctx, min (lines.length - 1) (i + ctx)) :: acc).reverse
      else
        extractWindowsAux lines ctx maxE rest
          (processed ++ rangeList (i - ctx) (min (lines.length - 1) (i + ctx)))
          ((i, i - ctx, min (lines.length - 1) (i + ctx)) :: acc)

/-- The windows emitted by extract_error_sections on the large-file path. -/
def extractWindows (lines : List String) (ctx maxE : Nat) :
    List (Nat × Nat × Nat) :=
  extractWindowsAux lines ctx maxE (errorLineIndices lines) [] []

/-- preprocessor.py line 118: `"".join(lines[start_idx:end_idx + 1])`. -/
def sectionText (lines : List String) (w : Nat × Nat × Nat) : String :=
  String.join ((lines.drop w.2.1).take (w.2.2 + 1 - w.2.1))

/-- The list extracted_sections of preprocessor.py lines 100-124. -/
def extractSections (lines : List String) (ctx maxE : Nat) : List String :=
  (extractWindows lines ctx maxE).map (fun w => sectionText lines w)

/-- Python `"=" * 40`. -/
def eqBar : String := String.mk (List.replicate 40 '=')

/-- preprocessor.py lines 126-137, the result of the large-file path.  Line
128 reads, with Python precedence (method call binds tighter than `+`):
`"\n\n" + "="*40 + " ERROR SECTION " + "="*40 + ("\n\n".join(sections))`,
so the banner is a one-off PREFIX and the join separator is "\n\n". -/
def extract_error_sections_large (lines : List String) (ctx maxE : Nat) : String :=
  if (extractSections lines ctx maxE).isEmpty then
    String.join (lines.take (min 100 lines.length)) ++ "\n\n[...log file continues...]"
  else
    "\n\n" ++ eqBar ++ " ERROR SECTION " ++ eqBar ++
      joinSep "\n\n" (extractSections lines ctx maxE)

/-- Modelled from the spec: the separator the claim of section 8 asserts to
lie between every two consecutive windows ("join all window texts with a
fixed banner separator"); used only to compare against the code. -/
def claimBannerSep : String :=
  "\n\n" ++ eqBar ++ " ERROR SECTION " ++ eqBar ++ "\n\n"

/- ---------- concrete inputs used by counterexamples/witnesses ---------- -/

/-- Seven lines with keyword matches at indices 0 and 4. -/
def demoLines : List String :=
  ["error one\n", "a\n", "b\n", "c\n", "error two\n", "d\n", "e\n"]

/-- Ten lines with keyword matches exactly at indices 5 and 6. -/
def demo2Lines : List String :=
  ["l0\n", "l1\n", "l2\n", "l3\n", "l4\n", "error A\n", "error B\n",
   "l7\n", "l8\n", "l9\n"]

/-- Five lines with keyword matches exactly at indices 0, 1 and 2. -/
def demo3Lines : List String :=
  ["error a\n", "error b\n", "error c\n", "x\n", "y\n"]

/-- Two keyword-free lines. -/
def demoCleanLines : List String := ["alpha\n", "beta\n"]

/- ---------- pattern summarizer (extract_error_patterns, lines 172-236) ---------- -/

/-- The dictionary returned by extract_error_patterns (line 182), fields in
the source's insertion order; dicts become association lists keeping the
key insertion order Python guarantees. -/
structure ErrorStats where
  common_errors : List (String × Nat)
  error_count : Nat
  warning_count : Nat
  exception_types : List (String × Nat)
  error_codes : List (String × Nat)
deriving DecidableEq, Repr

/-- Python dict bump `d[k] += 1 if k in d else d[k] = 1`, order-preserving. -/
def bump : List (String × Nat) → String → List (String × Nat)
  | [], k => [(k, 1)]
  | (k2, v) :: rest, k =>
    if k2 == k then (k2, v + 1) :: rest else (k2, v) :: bump rest k

/-- Tally a list of occurrences into an insertion-ordered histogram. -/
def tally (l : List String) : List (String × Nat) := l.foldl bump []

/-- Place x before the first entry of strictly smaller count; ties keep the
earlier entry first.  Folding this is Python's stable
`sorted(key=count, reverse=True)`. -/
def insertAfterTies : List (String × Nat) → (String × Nat) → List (String × Nat)
  | [], x => [x]
  | y :: ys, x => if y.2 < x.2 then x :: y :: ys else y :: insertAfterTies ys x

/-- Stable sort by descending count (preprocessor.py lines 230-234). -/
def sortDescStable (l : List (String × Nat)) : List (String × Nat) :=
  l.foldl insertAfterTies []

/-- Python `str.count(needle)` for a non-empty needle: non-overlapping
occurrences, scanning left to right; fuel is an upper bound on the scan
steps (the wrapper passes length + 1, each step consumes a character). -/
def countOccur (needle : List Char) : Nat → List Char → Nat
  | 0, _ => 0
  | _ + 1, [] => 0
  | fuel + 1, c :: t =>
    if startsWithL needle (c :: t) then
      1 + countOccur needle fuel (List.drop (needle.length - 1) t)
    else countOccur needle fuel t

/-- Python `hay.count(needle)`. -/
def countSub (hay needle : List Char) : Nat :=
  countOccur needle (hay.length + 1) hay

/-- Python `text.split("\n")`, the line decomposition that MULTILINE `^`/`$`
anchors induce on the text. -/
def splitNl : List Char → List (List Char)
  | [] => [[]]
  | c :: rest =>
    if c = '\n' then [] :: splitNl rest
    else
      match splitNl rest with
      | [] => [[c]]
      | g :: gs => (c :: g) :: gs

/-- preprocessor.py lines 213-214: a line is selected by the findall of
`^.*error.*$|^.*exception.*$|^.*fail.*$` (IGNORECASE, MULTILINE) exactly
when it contains one of the three substrings case-insensitively; the whole
line is the match. -/
def isErrorLine (l : List Char) : Bool :=
  hasSub (lowerL l) ("error").data || hasSub (lowerL l) ("exception").data ||
    hasSub (lowerL l) ("fail").data

/-- The error_lines list of preprocessor.py line 214. -/
def errorLines (t : String) : List (List Char) :=
  (splitNl t.data).filter isErrorLine

/-- preprocessor.py line 191: findall of `([A-Za-z]+Exception|[A-Za-z]+Error):`.
A match at a scan position is a maximal letter run of length at least 10
ending in "Exception" (tried first) or at least 6 ending in "Error",
immediately followed by a colon; the captured group is the whole run and
the scan resumes after the colon, as the backtracking engine does. -/
def findExcAux : Nat → List Char → List (List Char)
  | 0, _ => []
  | _ + 1, [] => []
  | fuel + 1, c :: t =>
    if ((decide (10 ≤ ((c :: t).takeWhile Char.isAlpha).length) &&
          ((c :: t).takeWhile Char.isAlpha).drop
              (((c :: t).takeWhile Char.isAlpha).length - 9) == ("Exception").data) ||
        (decide (6 ≤ ((c :: t).takeWhile Char.isAlpha).length) &&
          ((c :: t).takeWhile Char.isAlpha).drop
              (((c :: t).takeWhile Char.isAlpha).length - 5) == ("Error").data)) &&
        ((c :: t).dropWhile Char.isAlpha).take 1 == [':'] then
      ((c :: t).takeWhile Char.isAlpha) ::
        findExcAux fuel (((c :: t).dropWhile Char.isAlpha).drop 1)
    else findExcAux fuel t

/-- The exceptions list of preprocessor.py line 192. -/
def findExceptions (t : String) : List String :=
  (findExcAux (t.data.length + 1) t.data).map String.mk

/-- The class `[\s:=]` of the error-code pattern (ASCII whitespace as Python
\s gives on such text, plus colon and equals). -/
def isSepC (c : Char) : Bool :=
  c == ' ' || c == '\t' || c == '\n' || c == '\r' || c == '\x0b' ||
    c == '\x0c' || c == ':' || c == '='

/-- The class `[A-Z0-9_\-]` of preprocessor.py line 200 UNDER re.IGNORECASE,
which makes the letter range match both cases. -/
def isCodeChar (c : Char) : Bool :=
  c.isAlpha || c.isDigit || c == '_' || c == '-'

/-- Modelled from the spec: the token class the spec asserts
("uppercase-alnum-dash-underscore token"); used only for comparison. -/
def isUpperCodeChar (c : Char) : Bool :=
  c.isUpper || c.isDigit || c == '_' || c == '-'

/-- Case-insensitive equality of character lists. -/
def lowEqL (a b : List Char) : Bool := lowerL a == lowerL b

/-- preprocessor.py lines 200-201: findall of
`(?:error|code)[\s:=]+([A-Z0-9_\-]+)` with IGNORECASE.  A match needs the
prefix "error" (tried first) or "code" case-insensitively, then a non-empty
run of separator characters, then a non-empty token run; the token is
captured and the scan resumes after it. -/
def findCodeAux : Nat → List Char → List (List Char)
  | 0, _ => []
  | _ + 1, [] => []
  | fuel + 1, c :: t =>
    if lowEqL ((c :: t).take 5) (("error").data) then
      if (((c :: t).drop 5).takeWhile isSepC).isEmpty ||
          ((((c :: t).drop 5).dropWhile isSepC).takeWhile isCodeChar).isEmpty then
        findCodeAux fuel t
      else
        ((((c :: t).drop 5).dropWhile isSepC).takeWhile isCodeChar) ::
          findCodeAux fuel ((((c :: t).drop 5).dropWhile isSepC).dropWhile isCodeChar)
    else if lowEqL ((c :: t).take 4) (("code").data) then
      if (((c :: t).drop 4).takeWhile isSepC).isEmpty ||
          ((((c :: t).drop 4).dropWhile isSepC).takeWhile isCodeChar).isEmpty then
        findCodeAux fuel t
      else
        ((((c :: t).drop 4).dropWhile isSepC).takeWhile isCodeChar) ::
          findCodeAux fuel ((((c :: t).drop 4).dropWhile isSepC).dropWhile isCodeChar)
    else findCodeAux fuel t

/-- The error_codes occurrence list of preprocessor.py line 201. -/
def findErrorCodes (t : String) : List String :=
  (findCodeAux (t.data.length + 1) t.data).map String.mk

/-- The class `[0-9a-f]` (case-sensitive: re.sub on line 220 has no flags). -/
def isHexL (c : Char) : Bool :=
  c.isDigit || (decide ('a' ≤ c) && decide (c ≤ 'f'))

/-- The class `[-0-9a-f]`. -/
def isHexDash (c : Char) : Bool := isHexL c || c == '-'

/-- Does a UUID-shaped token (preprocessor.py line 220) start here?  The
pattern `[0-9a-f]{8}[-0-9a-f]{4}[-0-9a-f]{4}[-0-9a-f]{4}[-0-9a-f]{12}` is a
fixed 32-character shape: 8 hex then 24 hex-or-dash. -/
def uuidAt (hay : List Char) : Bool :=
  decide (32 ≤ hay.length) && (hay.take 8).all isHexL &&
    ((hay.drop 8).take 24).all isHexDash

/-- re.sub of the UUID shape with "<UUID>": leftmost, non-overlapping,
replacements not rescanned. -/
def subUUIDAux : Nat → List Char → List Char
  | 0, l => l
  | _ + 1, [] => []
  | fuel + 1, c :: t =>
    if uuidAt (c :: t) then
      ("<UUID>").data ++ subUUIDAux fuel ((c :: t).drop 32)
    else c :: subUUIDAux fuel t

def subUUID (l : List Char) : List Char := subUUIDAux (l.length + 1) l

/-- Python `\w` on this text: ASCII letters, digits, underscore. -/
def isWordC (c : Char) : Bool := c.isAlpha || c.isDigit || c == '_'

/-- re.sub of `\b\d+\b` with "<NUM>" (preprocessor.py line 221).  The flag
carries whether the previous character of the original text is a word
character; a digit run is replaced only when bracketed by non-word
characters or the ends of the string. -/
def subNumAux : Nat → Bool → List Char → List Char
  | 0, _, l => l
  | _ + 1, _, [] => []
  | fuel + 1, prevW, c :: t =>
    if !prevW && c.isDigit then
      if (((c :: t).dropWhile Char.isDigit).take 1).all (fun d => !isWordC d) then
        ("<NUM>").data ++ subNumAux fuel true ((c :: t).dropWhile Char.isDigit)
      else c :: subNumAux fuel true t
    else c :: subNumAux fuel (isWordC c) t

def subNum (l : List Char) : List Char := subNumAux (l.length + 1) false l

/-- re.sub of `\"[^\"]+\"` with "<STRING>" (preprocessor.py line 222):
a quote, at least one non-quote character, a closing quote. -/
def subStrAux : Nat → List Char → List Char
  | 0, l => l
  | _ + 1, [] => []
  | fuel + 1, c :: t =>
    if c == '"' && !(t.takeWhile (fun d => !(d == '"'))).isEmpty &&
        (t.dropWhile (fun d => !(d == '"'))).take 1 == ['"'] then
      ("<STRING>").data ++
        subStrAux fuel ((t.dropWhile (fun d => !(d == '"'))).drop 1)
    else c :: subStrAux fuel t

def subStr (l : List Char) : List Char := subStrAux (l.length + 1) l

/-- preprocessor.py lines 219-222: the three substitutions in their fixed
order (UUID, then digit runs, then quoted strings). -/
def normalizeLine (l : List Char) : List Char := subStr (subNum (subUUID l))

/-- preprocessor.py lines 172-236: extract_error_patterns. -/
def extract_error_patterns (log_text : String) : ErrorStats :=
  { common_errors :=
      (sortDescStable
        (tally ((errorLines log_text).map
          (fun l => String.mk (normalizeLine l))))).take 10
    error_count := countSub (lowerL log_text.data) (("error").data)
    warning_count := countSub (lowerL log_text.data) (("warning").data)
    exception_types := tally (findExceptions log_text)
    error_codes := tally (findErrorCodes log_text) }

/-- The literal scenario text of spec section 8 / claim C7. -/
def demoPatternText : String :=
  "UserError: bad id 42 at \"req-1\"\nUserError: bad id 43 at \"req-2\"\n"

/-- A text whose only error-code match carries a lowercase token. -/
def demoLowerCodeText : String := "error: abc"

/-- A text whose only error-code match carries an uppercase token. -/
def demoUpperCodeText : String := "error: ABC-1"

/- ---------- helper lemmas about the extractor loop ---------- -/

theorem mem_rangeList {s e x : Nat} (h1 : s ≤ x) (h2 : x ≤ e) :
    x ∈ rangeList s e := by
  unfold rangeList
  rw [List.mem_map]
  exact ⟨x - s, by rw [List.mem_range]; omega, by omega⟩

theorem extractWindowsAux_pairwise (lines : List String) (ctx maxE : Nat) :
    ∀ (ms processed : List Nat) (acc : List (Nat × Nat × Nat)),
      (∀ w ∈ acc, ∀ x : Nat, covers w x → x ∈ processed) →
      List.Pairwise (fun a b => ¬ covers a b.1) acc.reverse →
      List.Pairwise (fun a b => ¬ covers a b.1)
        (extractWindowsAux lines ctx maxE ms processed acc) := by
  intro ms
  induction ms with
  | nil =>
    intro processed acc hA hP
    rw [extractWindowsAux]
    exact hP
  | cons i rest ih =>
    intro processed acc hA hP
    rw [extractWindowsAux]
    by_cases hi : i ∈ processed
    · rw [if_pos hi]
      exact ih processed acc hA hP
    · rw [if_neg hi]
      have hnew : ∀ a ∈ acc, ¬ covers a i := by
        intro a ha hcov
        exact hi (hA a ha i hcov)
      have hP2 : List.Pairwise (fun a b => ¬ covers a b.1)
          (((i, i - ctx, min (lines.length - 1) (i + ctx)) :: acc).reverse) := by
        rw [List.reverse_cons]
        rw [List.pairwise_append]
        refine ⟨hP, List.pairwise_singleton _ _, ?_⟩
        intro a ha b hb
        rw [List.mem_singleton] at hb
        subst hb
        exact hnew a (List.mem_reverse.mp ha)
      by_cases hc : maxE ≤ ((i, i - ctx, min (lines.length - 1) (i + ctx)) :: acc).length
      · rw [if_pos hc]
        exact hP2
      · rw [if_neg hc]
        refine ih _ _ ?_ hP2
        intro w hw x hx
        rcases List.mem_cons.mp hw with hw | hw
        · subst hw
          rcases hx with ⟨hx1, hx2⟩
          exact List.mem_append_right _ (mem_rangeList hx1 hx2)
        · exact List.mem_append_left _ (hA w hw x hx)

theorem extractWindowsAux_length_le (lines : List String) (ctx maxE : Nat) :
    ∀ (ms processed : List Nat) (acc : List (Nat × Nat × Nat)),
      acc.length < maxE →
      (extractWindowsAux lines ctx maxE ms processed acc).length ≤ maxE := by
  intro ms
  induction ms with
  | nil =>
    intro processed acc hlt
    rw [extractWindowsAux, List.length_reverse]
    omega
  | cons i rest ih =>
    intro processed acc hlt
    rw [extractWindowsAux]
    by_cases hi : i ∈ processed
    · rw [if_pos hi]
      exact ih processed acc hlt
    · rw [if_neg hi]
      by_cases hc : maxE ≤ ((i, i - ctx, min (lines.length - 1) (i + ctx)) :: acc).length
      · rw [if_pos hc, List.length_reverse, List.length_cons]
        rw [List.length_cons] at hc
        omega
      · rw [if_neg hc]
        refine ih _ _ ?_
        simp only [List.length_cons] at hc ⊢
        omega

/- ---------- claim theorems: extractor ---------- -/

/-- Claim C1, counterexample: with radius 2 and matches at indices 0 and 4
of demoLines, the code emits windows [0,2] and [2,6]; file line 2 ("b\n")
is covered by the earlier window and re-emitted by the later one, so the
emitted windows are not pairwise disjoint as the claim states. -/
theorem extract_reemission_counterexample :
    ¬ List.Pairwise (fun a b => ∀ x : Nat, covers a x → ¬ covers b x)
        (extractWindows demoLines 2 500) := by
  intro h
  have hw : extractWindows demoLines 2 500 = [(0, 0, 2), (4, 2, 6)] := by decide
  rw [hw] at h
  have h01 := (List.pairwise_cons.mp h).1 (4, 2, 6) (by decide)
  exact h01 2 (by decide) (by decide)

/-- Claim C1, amended: what the processed-index marking does guarantee is
that the defining match index of every later emitted window is not covered
by any earlier emitted window (a later window may still re-emit covered
context lines). -/
theorem extract_windows_match_not_covered_earlier
    (lines : List String) (ctx maxE : Nat) :
    List.Pairwise (fun a b => ¬ covers a b.1) (extractWindows lines ctx maxE) := by
  apply extractWindowsAux_pairwise
  · intro w hw
    exact absurd hw (List.not_mem_nil w)
  · exact List.Pairwise.nil

/-- Claim C2, counterexample: on demo2Lines the matches are exactly 5 and 6
and radius is 2, yet the single emitted window is (5, 3, 7): it does not
cover line 8, contradicting the claimed coverage of lines 3 through 8. -/
theorem extract_overlap_window_counterexample :
    errorLineIndices demo2Lines = [5, 6] ∧
    extractWindows demo2Lines 2 500 = [(5, 3, 7)] ∧
    ¬ covers (5, 3, 7) 8 := by
  refine ⟨by decide, by decide, by decide⟩

/-- Claim C2, amended: with matches exactly at 5 and 6 and radius 2 (file
long enough to have a line 8), exactly one window is emitted and it covers
lines 3 through 7: the second match is skipped as already processed and its
trailing context line 8 is never added. -/
theorem extract_overlap_single_window (lines : List String)
    (hIdx : errorLineIndices lines = [5, 6]) (hLen : 9 ≤ lines.length) :
    extractWindows lines 2 500 = [(5, 3, 7)] := by
  have hmin : min (lines.length - 1) (5 + 2) = 7 := by omega
  rw [extractWindows, hIdx, extractWindowsAux, if_neg (by decide), hmin,
    if_neg (by decide), extractWindowsAux, if_pos (by decide),
    extractWindowsAux]
  decide

theorem extract_overlap_single_window_witness :
    errorLineIndices demo2Lines = [5, 6] ∧ 9 ≤ demo2Lines.length ∧
    extractWindows demo2Lines 2 500 = [(5, 3, 7)] :=
  ⟨by decide, by decide,
    extract_overlap_single_window demo2Lines (by decide) (by decide)⟩

/-- Claim C3, counterexample: demo3Lines has matches at 0, 1, 2 (three
matches, exceeding the cap 2), radius 2, yet only one window is emitted,
because the second and third matches are skipped as already processed; so
"exactly max_windows windows" fails. -/
theorem extract_cap_exact_counterexample :
    errorLineIndices demo3Lines = [0, 1, 2] ∧
    2 < (errorLineIndices demo3Lines).length ∧
    (extractWindows demo3Lines 2 2).length = 1 := by
  refine ⟨by decide, by decide, by decide⟩

/-- Claim C3, amended: for a positive cap the loop emits at most max_errors
windows (the break on reaching the cap), but possibly fewer even when the
matches outnumber the cap, since covered matches are skipped. -/
theorem extract_windows_length_le_cap (lines : List String) (ctx maxE : Nat)
    (h : 1 ≤ maxE) :
    (extractWindows lines ctx maxE).length ≤ maxE := by
  apply extractWindowsAux_length_le
  simpa using h

theorem extract_windows_length_le_cap_witness :
    1 ≤ 2 ∧ (extractWindows demo3Lines 2 2).length ≤ 2 :=
  ⟨by decide, extract_windows_length_le_cap demo3Lines 2 2 (by decide)⟩

/-- Claim C4: the vocabulary entry "OOM" is in ERROR_KEYWORDS and the
lowercased line "oom detected\n" contains the lowercase form of "OOM",
yet lineMatches rejects the line: the code lowercases only the line and
compares the keyword verbatim, so the uppercase entry can never fire. -/
theorem oom_keyword_never_matches :
    "OOM" ∈ ERROR_KEYWORDS ∧
    hasSub (lowerL ("oom detected\n").data) (lowerL ("OOM").data) = true ∧
    lineMatches ("oom detected\n") = false := by
  refine ⟨by decide, by decide, by decide⟩

/-- Claim C5, counterexample: on demoLines two windows are emitted, but the
result is not the windows joined by the banner separator; indeed the
portion holding the two windows joined by "\n\n" contains no occurrence of
" ERROR SECTION " at all, so no banner stands between the two windows. -/
theorem banner_between_windows_counterexample :
    (extractSections demoLines 2 500).length = 2 ∧
    extract_error_sections_large demoLines 2 500 ≠
      joinSep claimBannerSep (extractSections demoLines 2 500) ∧
    hasSub (joinSep "\n\n" (extractSections demoLines 2 500)).data
      (" ERROR SECTION ").data = false := by
  refine ⟨by decide, by decide, by decide⟩

/-- Claim C5, amended: whenever at least one window is emitted, the result
is the fixed banner written once as a prefix, followed by the window texts
joined pairwise by "\n\n" alone (Python precedence makes the join separator
"\n\n", not the banner). -/
theorem extract_result_banner_once_then_joined
    (lines : List String) (ctx maxE : Nat)
    (h : extractSections lines ctx maxE ≠ []) :
    extract_error_sections_large lines ctx maxE =
      "\n\n" ++ eqBar ++ " ERROR SECTION " ++ eqBar ++
        joinSep "\n\n" (extractSections lines ctx maxE) := by
  rw [extract_error_sections_large, if_neg]
  simpa using h

theorem extract_result_banner_once_then_joined_witness :
    extractSections demoLines 2 500 ≠ [] ∧
    extract_error_sections_large demoLines 2 500 =
      "\n\n" ++ eqBar ++ " ERROR SECTION " ++ eqBar ++
        joinSep "\n\n" (extractSections demoLines 2 500) :=
  ⟨by decide, extract_result_banner_once_then_joined demoLines 2 500 (by decide)⟩

/-- Claim C6: on the large-file path with zero keyword matches, the result
is exactly the first min(100, total_lines) lines followed by the literal
continuation marker. -/
theorem extract_no_match_head_sample (lines : List String) (ctx maxE : Nat)
    (h : errorLineIndices lines = []) :
    extract_error_sections_large lines ctx maxE =
      String.join (lines.take (min 100 lines.length)) ++
        "\n\n[...log file continues...]" := by
  have hsec : extractSections lines ctx maxE = [] := by
    rw [extractSections, extractWindows, h, extractWindowsAux]
    rfl
  rw [extract_error_sections_large, hsec,
    if_pos (show (List.isEmpty ([] : List String)) = true from rfl)]

theorem extract_no_match_head_sample_witness :
    errorLineIndices demoCleanLines = [] ∧
    extract_error_sections_large demoCleanLines 2 500 =
      String.join (demoCleanLines.take (min 100 demoCleanLines.length)) ++
        "\n\n[...log file continues...]" :=
  ⟨by decide, extract_no_match_head_sample demoCleanLines 2 500 (by decide)⟩

/- ---------- helper lemmas about the summarizer ---------- -/

theorem all_takeWhile (p : Char → Bool) :
    ∀ l : List Char, ((l.takeWhile p).all p) = true := by
  intro l
  induction l with
  | nil => rfl
  | cons c t ih =>
    rw [List.takeWhile_cons]
    cases hc : p c
    · rfl
    · simp [hc, ih]

theorem mem_bump_pos : ∀ (m : List (String × Nat)) (k : String),
    (∀ q ∈ m, 1 ≤ q.2) → ∀ p ∈ bump m k, 1 ≤ p.2 := by
  intro m
  induction m with
  | nil =>
    intro k _ p hp
    rw [bump] at hp
    rcases List.mem_singleton.mp hp with rfl
    exact le_refl 1
  | cons q rest ih =>
    intro k hm p hp
    obtain ⟨k2, v⟩ := q
    rw [bump] at hp
    by_cases hk : (k2 == k) = true
    · rw [if_pos hk] at hp
      rcases List.mem_cons.mp hp with rfl | hp
      · have := hm (k2, v) (List.mem_cons_self _ _)
        exact Nat.le_succ_of_le this
      · exact hm p (List.mem_cons_of_mem _ hp)
    · rw [if_neg hk] at hp
      rcases List.mem_cons.mp hp with rfl | hp
      · exact hm (k2, v) (List.mem_cons_self _ _)
      · exact ih k (fun q hq => hm q (List.mem_cons_of_mem _ hq)) p hp

theorem foldl_bump_pos : ∀ (l : List String) (acc : List (String × Nat)),
    (∀ q ∈ acc, 1 ≤ q.2) → ∀ p ∈ l.foldl bump acc, 1 ≤ p.2 := by
  intro l
  induction l with
  | nil => intro acc h p hp; exact h p hp
  | cons x xs ih =>
    intro acc h p hp
    exact ih (bump acc x) (mem_bump_pos acc x h) p hp

theorem mem_bump_key : ∀ (m : List (String × Nat)) (k : String) (p : String × Nat),
    p ∈ bump m k → p.1 = k ∨ p.1 ∈ m.map Prod.fst := by
  intro m
  induction m with
  | nil =>
    intro k p hp
    rw [bump] at hp
    rcases List.mem_singleton.mp hp with rfl
    exact Or.inl rfl
  | cons q rest ih =>
    intro k p hp
    obtain ⟨k2, v⟩ := q
    rw [bump] at hp
    by_cases hk : (k2 == k) = true
    · rw [if_pos hk] at hp
      rcases List.mem_cons.mp hp with rfl | hp
      · exact Or.inl (by simpa using hk)
      · exact Or.inr (by simpa using Or.inr (List.mem_map_of_mem Prod.fst hp))
    · rw [if_neg hk] at hp
      rcases List.mem_cons.mp hp with rfl | hp
      · exact Or.inr (by simp)
      · rcases ih k p hp with h | h
        · exact Or.inl h
        · exact Or.inr (by simpa using Or.inr h)

theorem foldl_bump_key : ∀ (l : List String) (acc : List (String × Nat))
    (p : String × Nat),
    p ∈ l.foldl bump acc → p.1 ∈ l ∨ p.1 ∈ acc.map Prod.fst := by
  intro l
  induction l with
  | nil =>
    intro acc p hp
    exact Or.inr (List.mem_map_of_mem Prod.fst hp)
  | cons x xs ih =>
    intro acc p hp
    rcases ih (bump acc x) p hp with h | h
    · exact Or.inl (List.mem_cons_of_mem _ h)
    · rcases List.mem_map.mp h with ⟨q, hq, hfst⟩
      rcases mem_bump_key acc x q hq with h2 | h2
      · exact Or.inl (by rw [← hfst, h2]; exact List.mem_cons_self _ _)
      · exact Or.inr (by rw [← hfst]; exact h2)

theorem mem_insertAfterTies :
    ∀ (acc : List (String × Nat)) (x p : String × Nat),
      p ∈ insertAfterTies acc x → p = x ∨ p ∈ acc := by
  intro acc
  induction acc with
  | nil =>
    intro x p hp
    rw [insertAfterTies] at hp
    exact Or.inl (List.mem_singleton.mp hp)
  | cons y ys ih =>
    intro x p hp
    rw [insertAfterTies] at hp
    by_cases hc : y.2 < x.2
    · rw [if_pos hc] at hp
      rcases List.mem_cons.mp hp with rfl | hp
      · exact Or.inl rfl
      · exact Or.inr hp
    · rw [if_neg hc] at hp
      rcases List.mem_cons.mp hp with rfl | hp
      · exact Or.inr (List.mem_cons_self _ _)
      · rcases ih x p hp with h | h
        · exact Or.inl h
        · exact Or.inr (List.mem_cons_of_mem _ h)

theorem mem_foldl_insertAfterTies :
    ∀ (l acc : List (String × Nat)) (p : String × Nat),
      p ∈ l.foldl insertAfterTies acc → p ∈ acc ∨ p ∈ l := by
  intro l
  induction l with
  | nil => intro acc p hp; exact Or.inl hp
  | cons x xs ih =>
    intro acc p hp
    rcases ih (insertAfterTies acc x) p hp with h | h
    · rcases mem_insertAfterTies acc x p h with h2 | h2
      · exact Or.inr (by rw [h2]; exact List.mem_cons_self _ _)
      · exact Or.inl h2
    · exact Or.inr (List.mem_cons_of_mem _ h)

theorem mem_findCodeAux_all :
    ∀ (fuel : Nat) (hay s : List Char),
      s ∈ findCodeAux fuel hay → s.all isCodeChar = true := by
  intro fuel
  induction fuel with
  | zero =>
    intro hay s h
    rw [findCodeAux] at h
    exact absurd h (List.not_mem_nil s)
  | succ n ih =>
    intro hay s h
    match hay with
    | [] =>
      rw [findCodeAux] at h
      exact absurd h (List.not_mem_nil s)
    | c :: t =>
      rw [findCodeAux] at h
      split_ifs at h
      · exact ih t s h
      · rcases List.mem_cons.mp h with rfl | h
        · exact all_takeWhile isCodeChar _
        · exact ih _ s h
      · exact ih t s h
      · rcases List.mem_cons.mp h with rfl | h
        · exact all_takeWhile isCodeChar _
        · exact ih _ s h
      · exact ih t s h

/- ---------- claim theorems: summarizer ---------- -/

/-- Claim C7: on the literal two-line UserError scenario, exception_types
is exactly one bucket "UserError" with count 2, and the common_errors
histogram is exactly one bucket, the normalized line
"UserError: bad id <NUM> at <STRING>" with count 2. -/
theorem patterns_user_error_scenario :
    (extract_error_patterns demoPatternText).exception_types =
      [("UserError", 2)] ∧
    (extract_error_patterns demoPatternText).common_errors =
      [("UserError: bad id <NUM> at <STRING>", 2)] := by
  refine ⟨by decide, by decide⟩

/-- Claim C8, counterexample: on the text "error: abc" the IGNORECASE flag
of the error-code pattern makes the class [A-Z0-9_\x2d] match lowercase
letters, so the tallied token is "abc", which fails the claimed
uppercase-digits-dash-underscore shape. -/
theorem error_code_lowercase_counterexample :
    (extract_error_patterns demoLowerCodeText).error_codes = [("abc", 1)] ∧
    (("abc").data.all isUpperCodeChar) = false := by
  refine ⟨by decide, by decide⟩

/-- Claim C8, amended: every tallied error-code token consists of letters
of either case, digits, dashes and underscores — the character class of the
source pattern as widened by re.IGNORECASE. -/
theorem error_code_tokens_charclass (t : String) (p : String × Nat)
    (hp : p ∈ (extract_error_patterns t).error_codes) :
    (p.1.data.all isCodeChar) = true := by
  have hkey : p.1 ∈ findErrorCodes t := by
    have h := foldl_bump_key (findErrorCodes t) [] p hp
    simpa using h
  rcases List.mem_map.mp hkey with ⟨s, hs, hmk⟩
  have : p.1.data = s := by rw [← hmk]
  rw [this]
  exact mem_findCodeAux_all _ _ s hs

theorem error_code_tokens_charclass_witness :
    ("ABC-1", 1) ∈ (extract_error_patterns demoUpperCodeText).error_codes ∧
    ((("ABC-1", 1) : String × Nat).1.data.all isCodeChar) = true :=
  ⟨by decide, error_code_tokens_charclass demoUpperCodeText _ (by decide)⟩

/-- Claim C9: the summarizer is a total function of the text (it is a plain
Lean function); on the empty string every count is zero and every mapping
is empty. -/
theorem patterns_empty_text_zero :
    extract_error_patterns ("") =
      { common_errors := [], error_count := 0, warning_count := 0,
        exception_types := [], error_codes := [] } := by
  decide

/-- Claim C10: every count stored in the three histograms of
extract_error_patterns is at least 1 — buckets are created at 1 and only
ever incremented, and sorting/truncation only selects existing buckets. -/
theorem patterns_counts_positive (t : String) (p : String × Nat)
    (hp : p ∈ (extract_error_patterns t).exception_types ∨
          p ∈ (extract_error_patterns t).error_codes ∨
          p ∈ (extract_error_patterns t).common_errors) :
    1 ≤ p.2 := by
  rcases hp with h | h | h
  · exact foldl_bump_pos (findExceptions t) [] (by simp) p h
  · exact foldl_bump_pos (findErrorCodes t) [] (by simp) p h
  · have h2 : p ∈ sortDescStable
        (tally ((errorLines t).map (fun l => String.mk (normalizeLine l)))) :=
      List.take_subset 10 _ h
    rcases mem_foldl_insertAfterTies _ [] p h2 with h3 | h3
    · exact absurd h3 (List.not_mem_nil p)
    · exact foldl_bump_pos _ [] (by simp) p h3

theorem patterns_counts_positive_witness :
    ("UserError", 2) ∈ (extract_error_patterns demoPatternText).exception_types ∧
    1 ≤ (("UserError", 2) : String × Nat).2 :=
  ⟨by decide,
    patterns_counts_positive demoPatternText _ (Or.inl (by decide))⟩
